import Mathlib

/-!
Verification of `member.py` (Federal-Parliament-Scraper): a shallow embedding
of the `Member` class — identity assignment (truncated SHA-1 of
first name + last name + province), the `has_name` matching heuristic, the
`from_json` factory and the `dump_json` exporter — together with proofs of
the specified properties.

External collaborators (`util.normalize_str`, `dateparser.parse`, the
`Activity` type, the `json` serializer) are not part of `src/`; they are
modelled from the spec where a model is needed, as noted on each definition.
-/

namespace Scraper

/-! ## Dates

Model of the Python `datetime` values the code consumes: the code reads
`.year`, `.isoformat()` and compares dates only through those. -/

structure DT where
  year : Nat
  month : Nat
  day : Nat
  hour : Nat
  minute : Nat
  second : Nat
  deriving DecidableEq, Repr

/-- The decimal digit character for `k % 10`. -/
def digitChar (k : Nat) : Char :=
  match k with
  | 0 => '0' | 1 => '1' | 2 => '2' | 3 => '3' | 4 => '4'
  | 5 => '5' | 6 => '6' | 7 => '7' | 8 => '8' | _ => '9'

/-- Character list of `datetime.isoformat()` (microsecond 0):
`YYYY-MM-DDTHH:MM:SS`, zero padded.  Python datetimes have
`1 <= year <= 9999`, so four year digits are always exact. -/
def DT.isoChars (d : DT) : List Char :=
  [digitChar (d.year / 1000 % 10), digitChar (d.year / 100 % 10),
   digitChar (d.year / 10 % 10), digitChar (d.year % 10), '-',
   digitChar (d.month / 10 % 10), digitChar (d.month % 10), '-',
   digitChar (d.day / 10 % 10), digitChar (d.day % 10), 'T',
   digitChar (d.hour / 10 % 10), digitChar (d.hour % 10), ':',
   digitChar (d.minute / 10 % 10), digitChar (d.minute % 10), ':',
   digitChar (d.second / 10 % 10), digitChar (d.second % 10)]

/-- `datetime.isoformat()` as a string. -/
def DT.isoformat (d : DT) : String := String.mk d.isoChars

/-! ## JSON values

The JSON documents the exporter writes, as a Lean inductive. -/

inductive Json where
  | null : Json
  | bool : Bool → Json
  | num : Int → Json
  | str : String → Json
  | arr : List Json → Json
  | obj : List (String × Json) → Json
  deriving Repr

/-- The lowercase hex digit character for `k % 16`. -/
def hexChar (k : Nat) : Char :=
  match k with
  | 0 => '0' | 1 => '1' | 2 => '2' | 3 => '3' | 4 => '4' | 5 => '5' | 6 => '6'
  | 7 => '7' | 8 => '8' | 9 => '9' | 10 => 'a' | 11 => 'b' | 12 => 'c'
  | 13 => 'd' | 14 => 'e' | _ => 'f'

/-- Four lowercase hex digits of a 16-bit value. -/
def hex4 (n : Nat) : String :=
  String.mk [hexChar (n / 4096 % 16), hexChar (n / 256 % 16),
    hexChar (n / 16 % 16), hexChar (n % 16)]

/-- Escape one character the way `json.dump` does (`ensure_ascii` selects
whether non-ASCII characters are `\uXXXX`-escaped, astral code points as a
surrogate pair). -/
def escChar (ensure_ascii : Bool) (c : Char) : String :=
  if c = '"' then "\\\""
  else if c = '\\' then "\\\\"
  else if c = '\n' then "\\n"
  else if c = '\t' then "\\t"
  else if c = '\r' then "\\r"
  else if c.toNat < 0x20 then
    "\\u" ++ hex4 c.toNat
  else if ensure_ascii && c.toNat ≥ 0x80 then
    if c.toNat < 0x10000 then "\\u" ++ hex4 c.toNat
    else
      "\\u" ++ hex4 (0xD800 + (c.toNat - 0x10000) / 0x400) ++
        "\\u" ++ hex4 (0xDC00 + (c.toNat - 0x10000) % 0x400)
  else String.singleton c

/-- A JSON string literal. -/
def quoteStr (ensure_ascii : Bool) (s : String) : String :=
  "\"" ++ String.join (s.toList.map (escChar ensure_ascii)) ++ "\""

mutual

/-- Serialization of a JSON value, following `json.dump` with its default
separators (`", "` between items, `": "` after keys). -/
def dumpJsonStr (ensure_ascii : Bool) : Json → String
  | .null => "null"
  | .bool b => if b then "true" else "false"
  | .num n => toString n
  | .str s => quoteStr ensure_ascii s
  | .arr l => "[" ++ dumpArr ensure_ascii l ++ "]"
  | .obj l => "\x7b" ++ dumpObj ensure_ascii l ++ "\x7d"

/-- Items of a JSON array, comma separated. -/
def dumpArr (ensure_ascii : Bool) : List Json → String
  | [] => ""
  | [x] => dumpJsonStr ensure_ascii x
  | x :: y :: xs => dumpJsonStr ensure_ascii x ++ ", " ++ dumpArr ensure_ascii (y :: xs)

/-- Entries of a JSON object, comma separated, in insertion order. -/
def dumpObj (ensure_ascii : Bool) : List (String × Json) → String
  | [] => ""
  | [(k, v)] => quoteStr ensure_ascii k ++ ": " ++ dumpJsonStr ensure_ascii v
  | (k, v) :: e :: xs =>
      quoteStr ensure_ascii k ++ ": " ++ dumpJsonStr ensure_ascii v ++ ", " ++
        dumpObj ensure_ascii (e :: xs)

end

/-! ## UTF-8 and SHA-1

`Member.__init__` computes `hashlib.sha1()` over
`first_name.encode('utf-8') + last_name.encode('utf-8') + province.encode('utf-8')`
and keeps the first 10 characters of the hex digest. -/

/-- UTF-8 encoding of one Unicode scalar value, as byte values. -/
def utf8Char (c : Char) : List Nat :=
  let n := c.toNat
  if n < 0x80 then [n]
  else if n < 0x800 then [0xC0 + n / 0x40, 0x80 + n % 0x40]
  else if n < 0x10000 then
    [0xE0 + n / 0x1000, 0x80 + n / 0x40 % 0x40, 0x80 + n % 0x40]
  else
    [0xF0 + n / 0x40000, 0x80 + n / 0x1000 % 0x40, 0x80 + n / 0x40 % 0x40,
     0x80 + n % 0x40]

/-- `str.encode('utf-8')`: the byte sequence of a string. -/
def utf8Encode (s : String) : List Nat :=
  (s.toList.map utf8Char).flatten

/-- 32-bit left rotation. -/
def rotl (n x : Nat) : Nat :=
  ((x <<< n) ||| (x >>> (32 - n))) % 2 ^ 32

/-- SHA-1 padding: append `0x80`, zero bytes to 56 mod 64, then the message
bit length as 8 big-endian bytes. -/
def sha1Pad (msg : List Nat) : List Nat :=
  let len := msg.length
  let zeros := (119 - len % 64) % 64
  let bitLen := len * 8
  msg ++ [0x80] ++ List.replicate zeros 0 ++
    (List.range 8).map (fun i => bitLen >>> ((7 - i) * 8) % 256)

/-- The 16 big-endian 32-bit words of one 64-byte chunk. -/
def chunkWords (chunk : List Nat) : List Nat :=
  (List.range 16).map (fun i =>
    chunk.getD (4 * i) 0 * 0x1000000 + chunk.getD (4 * i + 1) 0 * 0x10000 +
      chunk.getD (4 * i + 2) 0 * 0x100 + chunk.getD (4 * i + 3) 0)

/-- Extend 16 words to the 80-word SHA-1 message schedule. -/
def sha1Schedule (ws : List Nat) : List Nat :=
  (List.range 64).foldl
    (fun acc _ =>
      acc ++ [rotl 1 ((acc.getD (acc.length - 3) 0) ^^^ (acc.getD (acc.length - 8) 0) ^^^
        (acc.getD (acc.length - 14) 0) ^^^ (acc.getD (acc.length - 16) 0))])
    ws

/-- The SHA-1 round function and constant for round `t`. -/
def sha1FK (t b c d : Nat) : Nat × Nat :=
  if t < 20 then ((b &&& c) ||| ((b ^^^ 0xFFFFFFFF) &&& d), 0x5A827999)
  else if t < 40 then (b ^^^ c ^^^ d, 0x6ED9EBA1)
  else if t < 60 then ((b &&& c) ||| (b &&& d) ||| (c &&& d), 0x8F1BBCDC)
  else (b ^^^ c ^^^ d, 0xCA62C1D6)

/-- Process one chunk: 80 rounds starting from `(h0, h1, h2, h3, h4)`. -/
def sha1Chunk (h : Nat × Nat × Nat × Nat × Nat) (chunk : List Nat) :
    Nat × Nat × Nat × Nat × Nat :=
  let ws := sha1Schedule (chunkWords chunk)
  let (h0, h1, h2, h3, h4) := h
  let st := (List.range 80).foldl
    (fun st t =>
      let (a, b, c, d, e) := st
      let (f, k) := sha1FK t b c d
      ((rotl 5 a + f + e + k + ws.getD t 0) % 2 ^ 32, a, rotl 30 b, c, d))
    (h0, h1, h2, h3, h4)
  let (a, b, c, d, e) := st
  ((h0 + a) % 2 ^ 32, (h1 + b) % 2 ^ 32, (h2 + c) % 2 ^ 32, (h3 + d) % 2 ^ 32,
   (h4 + e) % 2 ^ 32)

/-- The five 32-bit state words of SHA-1 over a byte sequence. -/
def sha1State (msg : List Nat) : Nat × Nat × Nat × Nat × Nat :=
  let padded := sha1Pad msg
  (List.range (padded.length / 64)).foldl
    (fun h i => sha1Chunk h ((padded.drop (64 * i)).take 64))
    (0x67452301, 0xEFCDAB89, 0x98BADCFE, 0x10325476, 0xC3D2E1F0)

/-- Eight lowercase hex digits of a 32-bit word. -/
def hex8 (n : Nat) : List Char :=
  (List.range 8).map (fun i => hexChar (n >>> ((7 - i) * 4) % 16))

/-- `hashlib.sha1(msg).hexdigest()`: the 40-character lowercase hex digest. -/
def sha1Hexdigest (msg : List Nat) : String :=
  let (h0, h1, h2, h3, h4) := sha1State msg
  String.mk (hex8 h0 ++ hex8 h1 ++ hex8 h2 ++ hex8 h3 ++ hex8 h4)

/-- Python's string slice `s[:n]`: the first `n` characters. -/
def strTake (s : String) (n : Nat) : String := String.mk (s.toList.take n)

/-! ## External collaborators modelled from the spec -/

/-- Diacritic transliteration table for one character. -/
def stripDiacritic (c : Char) : Char :=
  match c with
  | 'á' | 'à' | 'â' | 'ä' | 'ã' | 'å' | 'ą' => 'a'
  | 'Á' | 'À' | 'Â' | 'Ä' | 'Ã' | 'Å' | 'Ą' => 'A'
  | 'é' | 'è' | 'ê' | 'ë' | 'ę' => 'e'
  | 'É' | 'È' | 'Ê' | 'Ë' | 'Ę' => 'E'
  | 'í' | 'ì' | 'î' | 'ï' => 'i'
  | 'Í' | 'Ì' | 'Î' | 'Ï' => 'I'
  | 'ó' | 'ò' | 'ô' | 'ö' | 'õ' => 'o'
  | 'Ó' | 'Ò' | 'Ô' | 'Ö' | 'Õ' => 'O'
  | 'ú' | 'ù' | 'û' | 'ü' => 'u'
  | 'Ú' | 'Ù' | 'Û' | 'Ü' => 'U'
  | 'ç' => 'c' | 'Ç' => 'C' | 'ñ' => 'n' | 'Ñ' => 'N'
  | 'ż' | 'ź' => 'z' | 'Ż' | 'Ź' => 'Z'
  | 'ł' => 'l' | 'Ł' => 'L' | 'ś' => 's' | 'Ś' => 'S'
  | c => c

/-- Modelled from the spec: `normalize_str` lives in `util.py`, which is not
under `src/`.  The spec (§6, §4.2) describes it as a text-normalization
primitive stripping diacritics/accents and case-folding.  Modelled as a
diacritic transliteration followed by lower-casing. -/
def normalize_str (s : String) : String :=
  String.mk ((s.toList.map stripDiacritic).map Char.toLower)

/-- Modelled from the spec: `dateparser.parse` is an external collaborator
(§6, "a free-text date parser `parse(text) -> structured_date`").  Modelled
as a parser of the ISO-8601 `YYYY-MM-DDTHH:MM:SS` layout that `DT.isoformat`
produces, returning `none` on any other input (§7: unparseable dates are
treated as fatal). -/
def parseIso (s : String) : Option DT :=
  match s.toList with
  | [y1, y2, y3, y4, c1, m1, m2, c2, d1, d2, c3, h1, h2, c4, i1, i2, c5, s1, s2] =>
    if ([y1, y2, y3, y4, m1, m2, d1, d2, h1, h2, i1, i2, s1, s2].all Char.isDigit)
        && c1 == '-' && c2 == '-' && c3 == 'T' && c4 == ':' && c5 == ':' then
      some ⟨(y1.toNat - 48) * 1000 + (y2.toNat - 48) * 100 + (y3.toNat - 48) * 10 +
              (y4.toNat - 48),
            (m1.toNat - 48) * 10 + (m2.toNat - 48), (d1.toNat - 48) * 10 + (d2.toNat - 48),
            (h1.toNat - 48) * 10 + (h2.toNat - 48), (i1.toNat - 48) * 10 + (i2.toNat - 48),
            (s1.toNat - 48) * 10 + (s2.toNat - 48)⟩
    else none
  | _ => none

/-! ## The data model

`Activity` (from `activity.py`, not under `src/`) is consumed by `Member`
only through its `date` attribute and its `dict(base_URI)` serialization
(spec §6), so it is modelled as exactly that interface.  `replaces` entries
are accessed as `replacement["member"]` and `replacement["dates"]`
(spec §9: `{member_ref, date_range}`). -/

structure Activity where
  date : DT
  dict : String → Json

structure Replacement where
  member : String
  dates : Json

structure Member where
  first_name : String
  last_name : String
  party : String
  province : String
  language : String
  url : Option String
  alternative_names : Option (List String)
  gender : String
  date_of_birth : DT
  photo_url : Option String
  replaces : List Replacement
  activities : List Activity
  uuid : String

/-- `Member.__init__`: stores the fields, initializes `replaces` and
`activities` to empty lists, and sets `uuid` to the first 10 characters of
the SHA-1 hex digest of the UTF-8 bytes of first name + last name +
province. -/
def mkMember (first_name last_name party province language : String)
    (url : Option String) (alternative_names : Option (List String))
    (gender : String) (date_of_birth : DT) (photo_url : Option String) : Member :=
  { first_name := first_name
    last_name := last_name
    party := party
    province := province
    language := language
    url := url
    alternative_names := alternative_names
    gender := gender
    date_of_birth := date_of_birth
    photo_url := photo_url
    replaces := []
    activities := []
    uuid := strTake (sha1Hexdigest (utf8Encode first_name ++ utf8Encode last_name ++
      utf8Encode province)) 10 }

/-! ## The `from_json` factory -/

/-- The errors the factory path can raise: Python's `KeyError` on a missing
required key, a type mismatch on a present value, or a failed date parse
(spec §7 treats both of the latter as fatal collaborator failures). -/
inductive JsonErr where
  | keyError (key : String)
  | typeError (key : String)
  | dateError
  deriving DecidableEq, Repr

/-- `json_entry.get(k)`: `None` when `k` is absent, never an error. -/
def getKey (entry : List (String × Json)) (k : String) : Option Json :=
  (entry.find? (fun p => p.1 == k)).map (fun p => p.2)

/-- `json_entry[k]`: raises `KeyError` when `k` is absent. -/
def lookupKey (entry : List (String × Json)) (k : String) : Except JsonErr Json :=
  match getKey entry k with
  | some v => .ok v
  | none => .error (.keyError k)

/-- A value used as a string field. -/
def asStr (k : String) (j : Json) : Except JsonErr String :=
  match j with
  | .str s => .ok s
  | _ => .error (.typeError k)

/-- A value used as an optional string field (`wiki`, `photo_url`): JSON
`null` stands for Python `None`. -/
def asOptStr (k : String) (j : Json) : Except JsonErr (Option String) :=
  match j with
  | .null => .ok none
  | .str s => .ok (some s)
  | _ => .error (.typeError k)

/-- The strings of a JSON array, when every element is a string. -/
def asStrList : List Json → Option (List String)
  | [] => some []
  | .str s :: tl => (asStrList tl).map (fun xs => s :: xs)
  | _ => none

/-- A value used as an optional list of strings (`alternative_names`). -/
def asOptStrList (k : String) (j : Option Json) : Except JsonErr (Option (List String)) :=
  match j with
  | none => .ok none
  | some .null => .ok none
  | some (.arr l) =>
      match asStrList l with
      | some xs => .ok (some xs)
      | none => .error (.typeError k)
  | some _ => .error (.typeError k)

/-- The argument list of the `Member(...)` call in `from_json` (line 74 of
`member.py`), read in Python's evaluation order, with the already parsed
date of birth passed through. -/
def from_json_rest (entry : List (String × Json)) (date_of_birth : DT) :
    Except JsonErr Member := do
  let fn ← lookupKey entry "first_name" >>= asStr "first_name"
  let ln ← lookupKey entry "last_name" >>= asStr "last_name"
  let party ← lookupKey entry "party" >>= asStr "party"
  let province ← lookupKey entry "province" >>= asStr "province"
  let language ← lookupKey entry "language" >>= asStr "language"
  let wiki ← lookupKey entry "wiki" >>= asOptStr "wiki"
  let alt ← asOptStrList "alternative_names" (getKey entry "alternative_names")
  let gender ← lookupKey entry "gender" >>= asStr "gender"
  let photo ← match getKey entry "photo_url" with
    | none => Except.ok none
    | some v => asOptStr "photo_url" v
  return mkMember fn ln party province language wiki alt gender date_of_birth photo

/-- `Member.from_json`: parses the date of birth first (line 73 of
`member.py` runs `dateparser.parse(json_entry['date_of_birth'])` before the
`Member(...)` call), then reads the remaining keys. -/
def from_json (entry : List (String × Json)) : Except JsonErr Member := do
  let dobJ ← lookupKey entry "date_of_birth"
  let dobS ← asStr "date_of_birth" dobJ
  let date_of_birth ← match parseIso dobS with
    | some d => Except.ok d
    | none => Except.error .dateError
  from_json_rest entry date_of_birth

/-! ## Accessors and mutators -/

/-- `Member.uri`. -/
def Member.uri (m : Member) : String := "members/" ++ m.uuid ++ ".json"

/-- `Member.normalized_name`. -/
def Member.normalized_name (m : Member) : String :=
  normalize_str (m.first_name ++ " " ++ m.last_name).toLower

/-- `Member.post_activity`: appends one activity. -/
def Member.post_activity (m : Member) (activity : Activity) : Member :=
  { m with activities := m.activities ++ [activity] }

/-- `Member.set_replaces`. -/
def Member.set_replaces (m : Member) (replaces : List Replacement) : Member :=
  { m with replaces := replaces }

/-- `Member.has_name`: normalize the query, try the alternative names (the
list is tested for truthiness: `if self.alternative_names:`), then the last
name alone, then "last first" and "first last". -/
def Member.has_name (m : Member) (query : String) : Bool :=
  let query := normalize_str query
  let name := normalize_str (m.last_name ++ " " ++ m.first_name)
  if (match m.alternative_names with
      | none => false
      | some l => !l.isEmpty) &&
     ((m.alternative_names.getD []).any (fun n => query == normalize_str n)) then
    true
  else if query == normalize_str m.last_name then
    true
  else
    query == name || query == normalize_str (m.first_name ++ " " ++ m.last_name)

/-! ## The exporter -/

/-- `os.path.join` for the relative components the exporter uses. -/
def pathJoin (a b : String) : String := a ++ "/" ++ b

/-- `activity_dict[y][ts].append v` on the inner `defaultdict(list)`:
find the timestamp bucket, creating it at the end on first use. -/
def addTs (b : List (String × List Json)) (ts : String) (v : Json) :
    List (String × List Json) :=
  match b with
  | [] => [(ts, [v])]
  | (ts', l) :: rest =>
      if ts' = ts then (ts', l ++ [v]) :: rest else (ts', l) :: addTs rest ts v

/-- `activity_dict[y][ts].append v` on the outer defaultdict: find the year
bucket, creating it at the end on first use. -/
def addAct (d : List (String × List (String × List Json))) (y ts : String) (v : Json) :
    List (String × List (String × List Json)) :=
  match d with
  | [] => [(y, [(ts, [v])])]
  | (y', b) :: rest =>
      if y' = y then (y', addTs b ts v) :: rest else (y', b) :: addAct rest y ts v

/-- The `activity_dict` built by `Member.dump_json`: for each activity in
stored order, append its serialized form under
`[str(date.year)][str(date.isoformat())]`. -/
def activity_dict (acts : List Activity) (base_URI : String) :
    List (String × List (String × List Json)) :=
  acts.foldl
    (fun d a => addAct d (toString a.date.year) a.date.isoformat (a.dict base_URI)) []

/-- `None` ↦ JSON `null`, a string ↦ a JSON string. -/
def optStr (s : Option String) : Json :=
  match s with
  | none => Json.null
  | some s => Json.str s

/-- The member summary object written by `Member.dump_json` (line 113 of
`member.py`), with the `replaces` member references rewritten to URIs and
`activities` the year → URI map. -/
def summary_fields (m : Member) (base_URI : String) : List (String × Json) :=
  let base_URI_members := base_URI ++ "members/"
  [("id", Json.str m.uuid), ("first_name", Json.str m.first_name),
   ("last_name", Json.str m.last_name), ("gender", Json.str m.gender),
   ("date_of_birth", Json.str m.date_of_birth.isoformat),
   ("language", Json.str m.language), ("province", Json.str m.province),
   ("party", Json.str m.party), ("wiki", optStr m.url),
   ("replaces", Json.arr (m.replaces.map (fun r =>
      Json.obj [("member", Json.str (base_URI_members ++ r.member ++ ".json")),
                ("dates", r.dates)]))),
   ("activities", Json.obj ((activity_dict m.activities base_URI).map (fun yb =>
      (yb.1, Json.str (base_URI_members ++ m.uuid ++ "/" ++ yb.1 ++ ".json"))))),
   ("photo_url", optStr m.photo_url)]

/-- `Member.dump_json`: the pair of (the file writes it performs, in order,
as path ↦ content) and the URI string it returns.  One year file per year
bucket (`json.dump` with its default `ensure_ascii=True`), then the summary
file (`ensure_ascii=False`). -/
def dump_json (m : Member) (base_path : String) (base_URI : String := "/") :
    List (String × String) × String :=
  let base_path := pathJoin base_path "members"
  let base_URI_members := base_URI ++ "members/"
  let resource_name := m.uuid ++ ".json"
  let adict := activity_dict m.activities base_URI
  let activities_dir := pathJoin base_path m.uuid
  let yearWrites := adict.map (fun yb =>
    (pathJoin activities_dir (yb.1 ++ ".json"),
     dumpJsonStr true (Json.obj (yb.2.map (fun tb => (tb.1, Json.arr tb.2))))))
  (yearWrites ++
     [(pathJoin base_path resource_name,
       dumpJsonStr false (Json.obj (summary_fields m base_URI)))],
   base_URI_members ++ resource_name)

/-! ## The file system model

A file system maps paths to contents; a write overwrites. -/

def FS := String → Option String

/-- Apply a list of writes in order, each overwriting its path. -/
def applyWrites (fs : FS) (ws : List (String × String)) : FS :=
  ws.foldl (fun f w => fun p => if p = w.1 then some w.2 else f p) fs

/-! ## Lookup helpers for the nested grouping -/

/-- The bucket stored under year `y` (empty when absent). -/
def lookupYear (d : List (String × List (String × List Json))) (y : String) :
    List (String × List Json) :=
  match d with
  | [] => []
  | (y', b) :: rest => if y' = y then b else lookupYear rest y

/-- The activity list stored under timestamp `ts` (empty when absent). -/
def lookupTs (b : List (String × List Json)) (ts : String) : List Json :=
  match b with
  | [] => []
  | (ts', l) :: rest => if ts' = ts then l else lookupTs rest ts

/-- The (year, timestamp) bucket of a grouping. -/
def bucket (d : List (String × List (String × List Json))) (y ts : String) : List Json :=
  lookupTs (lookupYear d y) ts

/-- The content of the last write to `p` in `ws`, if any. -/
def lastWrite : List (String × String) → String → Option String
  | [], _ => none
  | w :: ws, p =>
      match lastWrite ws p with
      | some c => some c
      | none => if p = w.1 then some w.2 else none

/-! ## Well-formedness of factory inputs -/

/-- The keys `from_json` reads with `json_entry[...]` (`KeyError` when
absent), in Python's evaluation order. -/
def requiredKeys : List String :=
  ["date_of_birth", "first_name", "last_name", "party", "province", "language",
   "wiki", "gender"]

/-- A value usable as a string field. -/
def strTypedB (j : Json) : Bool :=
  match j with
  | .str _ => true
  | _ => false

/-- A value usable as an optional string field. -/
def optStrTypedB (j : Json) : Bool :=
  match j with
  | .null => true
  | .str _ => true
  | _ => false

/-- The key, when present, holds a value passing `f`. -/
def keyTypedB (entry : List (String × Json)) (k : String) (f : Json → Bool) : Bool :=
  match getKey entry k with
  | none => true
  | some j => f j

/-- The `alternative_names` key, when present, holds null or a list of
strings. -/
def altTypedB (entry : List (String × Json)) : Bool :=
  match getKey entry "alternative_names" with
  | none => true
  | some .null => true
  | some (.arr l) => l.all strTypedB
  | some _ => false

/-- The `date_of_birth` key, when present, holds a parseable date string. -/
def dobTypedB (entry : List (String × Json)) : Bool :=
  match getKey entry "date_of_birth" with
  | none => true
  | some (.str s) => (parseIso s).isSome
  | some _ => false

/-- Every key a factory record may carry holds a well-formed value whenever
it is present (string fields are strings, `wiki`/`photo_url` null or string,
`alternative_names` a list of strings, `date_of_birth` a parseable date). -/
def wellTypedB (entry : List (String × Json)) : Bool :=
  keyTypedB entry "first_name" strTypedB && keyTypedB entry "last_name" strTypedB &&
  keyTypedB entry "party" strTypedB && keyTypedB entry "province" strTypedB &&
  keyTypedB entry "language" strTypedB && keyTypedB entry "gender" strTypedB &&
  keyTypedB entry "wiki" optStrTypedB && keyTypedB entry "photo_url" optStrTypedB &&
  altTypedB entry && dobTypedB entry

/-! ## Concrete fixtures used to instantiate proved properties -/

/-- A member as the constructor builds it. -/
def mJan : Member :=
  mkMember "Jan" "Kowalski" "Vooruit" "Antwerpen" "nl" none none "M"
    ⟨1980, 1, 2, 0, 0, 0⟩ none

/-- A member whose name carries a diacritic. -/
def mJozef : Member :=
  mkMember "Józef" "Nowak" "CD&V" "Brussel" "nl" none none "M"
    ⟨1970, 5, 3, 0, 0, 0⟩ none

/-- An activity dated 2021-01-01T10:00. -/
def actA : Activity := ⟨⟨2021, 1, 1, 10, 0, 0⟩, fun _ => Json.null⟩

/-- An activity dated 2022-03-03T09:00. -/
def actB : Activity := ⟨⟨2022, 3, 3, 9, 0, 0⟩, fun _ => Json.null⟩

/-- `mJan` after posting the two example activities. -/
def mTwo : Member := (mJan.post_activity actA).post_activity actB

/-- A factory record with every required key and no optional ones. -/
def entryComplete : List (String × Json) :=
  [("first_name", Json.str "Jan"), ("last_name", Json.str "Kowalski"),
   ("party", Json.str "Vooruit"), ("province", Json.str "Antwerpen"),
   ("language", Json.str "nl"), ("wiki", Json.null), ("gender", Json.str "M"),
   ("date_of_birth", Json.str "1980-01-02T00:00:00")]

/-- A factory record lacking the required key `party`. -/
def entryMissingParty : List (String × Json) :=
  [("first_name", Json.str "Jan"), ("last_name", Json.str "Kowalski"),
   ("province", Json.str "Antwerpen"), ("language", Json.str "nl"),
   ("wiki", Json.null), ("gender", Json.str "M"),
   ("date_of_birth", Json.str "1980-01-02T00:00:00")]

theorem lookupTs_addTs (b : List (String × List Json)) (ts' ts : String) (v : Json) :
    lookupTs (addTs b ts' v) ts = lookupTs b ts ++ (if ts = ts' then [v] else []) := by
  induction b with
  | nil =>
    by_cases h : ts = ts'
    · subst h
      simp [addTs, lookupTs]
    · have h' : ¬ ts' = ts := fun hh => h hh.symm
      simp [addTs, lookupTs, h, h']
  | cons hd tl ih =>
    obtain ⟨ts'', l⟩ := hd
    by_cases h1 : ts'' = ts'
    · subst h1
      by_cases h2 : ts'' = ts
      · subst h2
        simp [addTs, lookupTs]
      · have h2' : ¬ ts = ts'' := fun hh => h2 hh.symm
        simp [addTs, lookupTs, h2, h2']
    · by_cases h2 : ts'' = ts
      · subst h2
        simp [addTs, lookupTs, h1]
      · simp [addTs, lookupTs, h1, h2, ih]

theorem lookupYear_addAct (d : List (String × List (String × List Json)))
    (y' ts : String) (v : Json) (y : String) :
    lookupYear (addAct d y' ts v) y =
      if y = y' then addTs (lookupYear d y') ts v else lookupYear d y := by
  induction d with
  | nil =>
    by_cases h : y = y'
    · subst h
      simp [addAct, lookupYear, addTs]
    · have h' : ¬ y' = y := fun hh => h hh.symm
      simp [addAct, lookupYear, h, h']
  | cons hd tl ih =>
    obtain ⟨y'', b⟩ := hd
    by_cases h1 : y'' = y'
    · subst h1
      by_cases h2 : y'' = y
      · subst h2
        simp [addAct, lookupYear]
      · have h2' : ¬ y = y'' := fun hh => h2 hh.symm
        simp [addAct, lookupYear, h2, h2']
    · by_cases h2 : y'' = y
      · subst h2
        simp [addAct, lookupYear, h1]
      · simp [addAct, lookupYear, h1, h2, ih]

theorem bucket_addAct (d : List (String × List (String × List Json)))
    (y' ts' : String) (v : Json) (y ts : String) :
    bucket (addAct d y' ts' v) y ts =
      bucket d y ts ++ (if y = y' ∧ ts = ts' then [v] else []) := by
  unfold bucket
  rw [lookupYear_addAct]
  by_cases hy : y = y'
  · subst hy
    rw [if_pos rfl, lookupTs_addTs]
    by_cases hts : ts = ts' <;> simp [hts]
  · simp [hy]

theorem bucket_foldl (acts : List Activity) (u : String)
    (d : List (String × List (String × List Json))) (y ts : String) :
    bucket (acts.foldl
        (fun d a => addAct d (toString a.date.year) a.date.isoformat (a.dict u)) d) y ts =
      bucket d y ts ++
        (acts.filter (fun a => toString a.date.year == y && a.date.isoformat == ts)).map
          (fun a => a.dict u) := by
  induction acts generalizing d with
  | nil => simp
  | cons a tl ih =>
    have hcond : ((toString a.date.year == y && a.date.isoformat == ts) = true) ↔
        (toString a.date.year = y ∧ a.date.isoformat = ts) := by
      simp
    rw [List.foldl_cons, ih, bucket_addAct, List.filter_cons]
    by_cases hc : toString a.date.year = y ∧ a.date.isoformat = ts
    · rw [if_pos ⟨hc.1.symm, hc.2.symm⟩, if_pos (hcond.mpr hc)]
      simp
    · rw [if_neg (fun h => hc ⟨h.1.symm, h.2.symm⟩), if_neg (fun h => hc (hcond.mp h))]
      simp

/-! ## Pointwise characterization of applying a write list -/

theorem applyWrites_point (fs : FS) (ws : List (String × String)) (p : String) :
    applyWrites fs ws p =
      match lastWrite ws p with
      | some c => some c
      | none => fs p := by
  induction ws generalizing fs with
  | nil => simp [applyWrites, lastWrite]
  | cons w ws ih =>
    show applyWrites (fun q => if q = w.1 then some w.2 else fs q) ws p = _
    rw [ih]
    cases h : lastWrite ws p with
    | some c => simp [lastWrite, h]
    | none =>
      simp only [lastWrite, h]
      by_cases hp : p = w.1 <;> simp [hp]

/-! ## String facts -/

theorem strAppend_assoc (a b c : String) : a ++ b ++ c = a ++ (b ++ c) := by
  obtain ⟨la⟩ := a
  obtain ⟨lb⟩ := b
  obtain ⟨lc⟩ := c
  show String.mk (la ++ lb ++ lc) = String.mk (la ++ (lb ++ lc))
  rw [List.append_assoc]

/-! ## Round trip of `DT.isoformat` through the date parser -/

theorem digitChar_isDigit : ∀ k, k < 10 → (digitChar k).isDigit = true := by decide

theorem digitChar_val : ∀ k, k < 10 → (digitChar k).toNat - 48 = k := by decide

theorem parseIso_isoformat (d : DT) (hy : d.year < 10000) (hmo : d.month < 100)
    (hda : d.day < 100) (hho : d.hour < 100) (hmi : d.minute < 100)
    (hse : d.second < 100) : parseIso d.isoformat = some d := by
  obtain ⟨y, mo, da, ho, mi, se⟩ := d
  simp only at hy hmo hda hho hmi hse
  have h10 : ∀ n : Nat, n % 10 < 10 := fun n => Nat.mod_lt _ (by norm_num)
  show parseIso (String.mk _) = _
  rw [parseIso]
  simp only [DT.isoChars, String.toList]
  rw [List.all_cons, List.all_cons, List.all_cons, List.all_cons, List.all_cons,
    List.all_cons, List.all_cons, List.all_cons, List.all_cons, List.all_cons,
    List.all_cons, List.all_cons, List.all_cons, List.all_cons]
  simp only [List.all_nil, Bool.and_true,
    digitChar_isDigit _ (h10 _), Bool.true_and, beq_self_eq_true, if_pos]
  rw [digitChar_val _ (h10 _), digitChar_val _ (h10 _), digitChar_val _ (h10 _),
    digitChar_val _ (h10 _), digitChar_val _ (h10 _), digitChar_val _ (h10 _),
    digitChar_val _ (h10 _), digitChar_val _ (h10 _), digitChar_val _ (h10 _),
    digitChar_val _ (h10 _), digitChar_val _ (h10 _), digitChar_val _ (h10 _),
    digitChar_val _ (h10 _), digitChar_val _ (h10 _)]
  have ey : y / 1000 % 10 * 1000 + y / 100 % 10 * 100 + y / 10 % 10 * 10 + y % 10 = y := by
    omega
  have e2 : ∀ n : Nat, n < 100 → n / 10 % 10 * 10 + n % 10 = n := by omega
  rw [ey, e2 mo hmo, e2 da hda, e2 ho hho, e2 mi hmi, e2 se hse]

/-! ## Reduction lemmas for the `Except` monad -/

theorem exceptBind_ok {α β ε : Type} (a : α) (f : α → Except ε β) :
    (Except.ok a : Except ε α) >>= f = f a := rfl

theorem exceptBind_error {α β ε : Type} (e : ε) (f : α → Except ε β) :
    (Except.error e : Except ε α) >>= f = (Except.error e : Except ε β) := rfl

theorem exceptPure {α ε : Type} (a : α) : (pure a : Except ε α) = Except.ok a := rfl

/-! ## Computation of `from_json` on well-shaped inputs -/

theorem from_json_split (entry : List (String × Json)) (s : String)
    (h : getKey entry "date_of_birth" = some (Json.str s)) :
    from_json entry =
      (match parseIso s with
       | some d => Except.ok d
       | none => Except.error JsonErr.dateError) >>= from_json_rest entry := by
  simp only [from_json, lookupKey, h, exceptBind_ok, asStr]
  cases parseIso s <;> rfl

theorem from_json_rest_summary (m : Member) (u : String) (d : DT) :
    from_json_rest (summary_fields m u) d =
      Except.ok (mkMember m.first_name m.last_name m.party m.province m.language
        m.url none m.gender d m.photo_url) := by
  obtain ⟨fn, ln, pa, pr, la, url, alt, g, dob, ph, rep, act, uu⟩ := m
  cases url <;> cases ph <;> rfl

/-! ## The claims -/

/-- C1: the identifier `uuid` is the first 10 characters of the lowercase
hexadecimal SHA-1 digest of the UTF-8 byte-concatenation of first name,
last name and province, computed at construction; two members constructed
from identical (first name, last name, province) triples get identical
identifiers whatever their other fields are. -/
theorem mkMember_uuid_sha1 :
    (∀ (fn ln pa pr la : String) (url : Option String) (alt : Option (List String))
       (g : String) (dob : DT) (ph : Option String),
       (mkMember fn ln pa pr la url alt g dob ph).uuid =
         strTake (sha1Hexdigest (utf8Encode fn ++ utf8Encode ln ++ utf8Encode pr)) 10) ∧
    (∀ (fn ln pr pa1 pa2 la1 la2 : String) (u1 u2 : Option String)
       (a1 a2 : Option (List String)) (g1 g2 : String) (d1 d2 : DT)
       (ph1 ph2 : Option String),
       (mkMember fn ln pa1 pr la1 u1 a1 g1 d1 ph1).uuid =
         (mkMember fn ln pa2 pr la2 u2 a2 g2 d2 ph2).uuid) :=
  ⟨fun _ _ _ _ _ _ _ _ _ _ => rfl,
   fun _ _ _ _ _ _ _ _ _ _ _ _ _ _ _ _ _ => rfl⟩

set_option maxHeartbeats 1000000 in
/-- C2: export groups activities first by the string of the calendar year
and then by the ISO-8601 timestamp string — the (year, timestamp) bucket of
the grouping holds exactly the serialized activities with that year and
that timestamp, in stored order — and for a member with exactly the two
activities dated 2021-01-01T10:00 and 2022-03-03T09:00, `dump_json` writes
exactly the two year files `2021.json` and `2022.json` (plus the summary
file), each holding exactly one timestamp key. -/
theorem activities_grouped_by_year_then_date :
    (∀ (acts : List Activity) (u y ts : String),
       bucket (activity_dict acts u) y ts =
         (acts.filter (fun a => toString a.date.year == y && a.date.isoformat == ts)).map
           (fun a => a.dict u)) ∧
    ((dump_json mTwo "site" "/").1.map Prod.fst =
       [pathJoin (pathJoin (pathJoin "site" "members") mTwo.uuid) "2021.json",
        pathJoin (pathJoin (pathJoin "site" "members") mTwo.uuid) "2022.json",
        pathJoin (pathJoin "site" "members") (mTwo.uuid ++ ".json")]) ∧
    ((activity_dict mTwo.activities "/").map (fun yb => (yb.1, yb.2.map Prod.fst)) =
       [("2021", ["2021-01-01T10:00:00"]), ("2022", ["2022-03-03T09:00:00"])]) := by
  refine ⟨?_, rfl, rfl⟩
  intro acts u y ts
  have h := bucket_foldl acts u [] y ts
  simpa [activity_dict, bucket, lookupYear, lookupTs] using h

/-- C3: `has_name` depends on the query only through `normalize_str`: two
queries with the same normalization get the same answer from every member. -/
theorem has_name_respects_normalization (m : Member) (q1 q2 : String)
    (h : normalize_str q1 = normalize_str q2) : m.has_name q1 = m.has_name q2 := by
  unfold Member.has_name
  rw [h]

/-- Instantiation of `has_name_respects_normalization`: a member named
Józef Nowak answers `has_name "józef nowak"` and `has_name "JOZEF NOWAK"`
the same way. -/
theorem has_name_respects_normalization_witness :
    normalize_str "józef nowak" = normalize_str "JOZEF NOWAK" ∧
    mJozef.has_name "józef nowak" = mJozef.has_name "JOZEF NOWAK" :=
  ⟨by decide,
   has_name_respects_normalization mJozef "józef nowak" "JOZEF NOWAK" (by decide)⟩

/-- C4: exporting a member and feeding the summary record back through
`from_json` reproduces `uuid`, `first_name`, `last_name` and
`date_of_birth`, for every member whose `uuid` is the one the constructor
assigns and whose date of birth fits the ISO layout. -/
theorem dump_from_json_roundtrip (m : Member) (u : String)
    (huuid : m.uuid = strTake (sha1Hexdigest (utf8Encode m.first_name ++
      utf8Encode m.last_name ++ utf8Encode m.province)) 10)
    (hy : m.date_of_birth.year < 10000) (hmo : m.date_of_birth.month < 100)
    (hda : m.date_of_birth.day < 100) (hho : m.date_of_birth.hour < 100)
    (hmi : m.date_of_birth.minute < 100) (hse : m.date_of_birth.second < 100) :
    ∃ m', from_json (summary_fields m u) = Except.ok m' ∧
      m'.uuid = m.uuid ∧ m'.first_name = m.first_name ∧
      m'.last_name = m.last_name ∧ m'.date_of_birth = m.date_of_birth := by
  have hdob : getKey (summary_fields m u) "date_of_birth" =
      some (Json.str m.date_of_birth.isoformat) := rfl
  refine ⟨mkMember m.first_name m.last_name m.party m.province m.language
    m.url none m.gender m.date_of_birth m.photo_url, ?_, ?_, rfl, rfl, rfl⟩
  · rw [from_json_split _ _ hdob,
      parseIso_isoformat m.date_of_birth hy hmo hda hho hmi hse]
    exact from_json_rest_summary m u m.date_of_birth
  · rw [huuid]
    rfl

/-- Instantiation of `dump_from_json_roundtrip` at a concrete member. -/
theorem dump_from_json_roundtrip_witness :
    (mJan.uuid = strTake (sha1Hexdigest (utf8Encode mJan.first_name ++
       utf8Encode mJan.last_name ++ utf8Encode mJan.province)) 10 ∧
     mJan.date_of_birth.year < 10000 ∧ mJan.date_of_birth.month < 100 ∧
     mJan.date_of_birth.day < 100 ∧ mJan.date_of_birth.hour < 100 ∧
     mJan.date_of_birth.minute < 100 ∧ mJan.date_of_birth.second < 100) ∧
    (∃ m', from_json (summary_fields mJan "/") = Except.ok m' ∧
       m'.uuid = mJan.uuid ∧ m'.first_name = mJan.first_name ∧
       m'.last_name = mJan.last_name ∧ m'.date_of_birth = mJan.date_of_birth) :=
  ⟨⟨rfl, by decide, by decide, by decide, by decide, by decide, by decide⟩,
   dump_from_json_roundtrip mJan "/" rfl (by decide) (by decide) (by decide)
     (by decide) (by decide) (by decide)⟩

/-- C5: running `dump_json` twice with the same arguments and no
intervening mutation leaves the file system exactly as one run does — the
second run overwrites each file with identical bytes. -/
theorem dump_json_idempotent (m : Member) (bp u : String) (fs : FS) :
    applyWrites (applyWrites fs (dump_json m bp u).1) (dump_json m bp u).1 =
      applyWrites fs (dump_json m bp u).1 := by
  funext p
  rw [applyWrites_point, applyWrites_point]
  cases h : lastWrite (dump_json m bp u).1 p <;> simp

/-- C6: `dump_json` returns `base_URI ++ "members/" ++ uuid ++ ".json"`. -/
theorem dump_json_returns_uri (m : Member) (bp u : String) :
    (dump_json m bp u).2 = u ++ "members/" ++ m.uuid ++ ".json" := by
  show u ++ "members/" ++ (m.uuid ++ ".json") = u ++ "members/" ++ m.uuid ++ ".json"
  rw [strAppend_assoc (u ++ "members/") m.uuid ".json"]

/-- C7: a query whose normalization equals the normalized last name alone
always matches. -/
theorem has_name_surname_only (m : Member) (q : String)
    (h : normalize_str q = normalize_str m.last_name) : m.has_name q = true := by
  unfold Member.has_name
  rw [h]
  simp

/-- Instantiation of `has_name_surname_only`: member "Jan Kowalski"
matches the query "Kowalski" (here up to case). -/
theorem has_name_surname_only_witness :
    normalize_str "KOWALSKI" = normalize_str mJan.last_name ∧
    mJan.has_name "KOWALSKI" = true :=
  ⟨by decide, has_name_surname_only mJan "KOWALSKI" (by decide)⟩

/-- C9: `post_activity` appends exactly the given activity at the end of
`activities` and leaves every other field unchanged. -/
theorem post_activity_frame (m : Member) (a : Activity) :
    (m.post_activity a).activities = m.activities ++ [a] ∧
    (m.post_activity a).uuid = m.uuid ∧
    (m.post_activity a).first_name = m.first_name ∧
    (m.post_activity a).last_name = m.last_name ∧
    (m.post_activity a).party = m.party ∧
    (m.post_activity a).province = m.province ∧
    (m.post_activity a).language = m.language ∧
    (m.post_activity a).url = m.url ∧
    (m.post_activity a).alternative_names = m.alternative_names ∧
    (m.post_activity a).gender = m.gender ∧
    (m.post_activity a).date_of_birth = m.date_of_birth ∧
    (m.post_activity a).photo_url = m.photo_url ∧
    (m.post_activity a).replaces = m.replaces :=
  ⟨rfl, rfl, rfl, rfl, rfl, rfl, rfl, rfl, rfl, rfl, rfl, rfl, rfl⟩

/-- C10: a member with `alternative_names = []` answers every `has_name`
query exactly like the member that differs only by `alternative_names`
being absent: the list is tested for truthiness, and an empty list is as
falsy as `None`. -/
theorem has_name_empty_alternative_names (m : Member) (q : String) :
    ({ m with alternative_names := some [] } : Member).has_name q =
      ({ m with alternative_names := none } : Member).has_name q := rfl

/-! ## Stepping `from_json` through its key lookups -/

theorem from_json_dob_none (entry : List (String × Json))
    (h : getKey entry "date_of_birth" = none) :
    from_json entry = Except.error (JsonErr.keyError "date_of_birth") := by
  simp [from_json, lookupKey, h, exceptBind_error]

theorem from_json_to_rest (entry : List (String × Json)) (s : String) (d : DT)
    (hdob : getKey entry "date_of_birth" = some (Json.str s))
    (hpar : parseIso s = some d) :
    from_json entry = from_json_rest entry d := by
  rw [from_json_split entry s hdob, hpar]
  rfl

theorem strTyped_shape (j : Json) (h : strTypedB j = true) : ∃ s, j = Json.str s := by
  cases j <;> first | exact ⟨_, rfl⟩ | simp [strTypedB] at h

theorem optStrTyped_ok (k : String) (j : Json) (h : optStrTypedB j = true) :
    ∃ w, asOptStr k j = Except.ok w := by
  cases j <;>
    first
      | exact ⟨none, rfl⟩
      | exact ⟨some _, rfl⟩
      | simp [optStrTypedB] at h

theorem keyTyped_some (entry : List (String × Json)) (k : String) (f : Json → Bool)
    (j : Json) (hj : getKey entry k = some j) (h : keyTypedB entry k f = true) :
    f j = true := by
  unfold keyTypedB at h
  rw [hj] at h
  simpa using h

theorem asStrList_ok (l : List Json) (h : ∀ j ∈ l, strTypedB j = true) :
    ∃ xs, asStrList l = some xs := by
  induction l with
  | nil => exact ⟨[], rfl⟩
  | cons j tl ih =>
    obtain ⟨xs, hxs⟩ := ih (fun x hx => h x (List.mem_cons_of_mem _ hx))
    obtain ⟨s, rfl⟩ := strTyped_shape j (h j (List.mem_cons_self _ _))
    exact ⟨s :: xs, by simp [asStrList, hxs]⟩

theorem altTyped_ok (entry : List (String × Json)) (h : altTypedB entry = true) :
    ∃ a, asOptStrList "alternative_names" (getKey entry "alternative_names") =
      Except.ok a := by
  unfold altTypedB at h
  rcases hga : getKey entry "alternative_names" with _ | ja
  · exact ⟨none, rfl⟩
  · rw [hga] at h
    cases ja with
    | null => exact ⟨none, rfl⟩
    | arr l =>
      simp only [List.all_eq_true] at h
      obtain ⟨xs, hxs⟩ := asStrList_ok l h
      exact ⟨some xs, by simp [asOptStrList, hga, hxs]⟩
    | bool b => simp at h
    | num n => simp at h
    | str s => simp at h
    | obj o => simp at h

theorem dobTyped_shape (entry : List (String × Json)) (jd : Json)
    (hdob : getKey entry "date_of_birth" = some jd) (h : dobTypedB entry = true) :
    ∃ s d, jd = Json.str s ∧ parseIso s = some d := by
  unfold dobTypedB at h
  rw [hdob] at h
  cases jd with
  | str s =>
    simp only [Option.isSome_iff_exists] at h
    obtain ⟨d, hd⟩ := h
    exact ⟨s, d, rfl, hd⟩
  | null => simp at h
  | bool b => simp at h
  | num n => simp at h
  | arr l => simp at h
  | obj o => simp at h

/-- C8: on well-formed records, `from_json` fails with a missing-key error
for every input lacking any of the required keys, and succeeds when only
the optional keys `alternative_names` or `photo_url` are absent, those
fields then defaulting to `None`. -/
theorem from_json_required_optional :
    (∀ entry : List (String × Json), wellTypedB entry = true →
       (requiredKeys.any fun k => (getKey entry k).isNone) = true →
       ∃ k, k ∈ requiredKeys ∧ getKey entry k = none ∧
         from_json entry = Except.error (JsonErr.keyError k)) ∧
    (∀ entry : List (String × Json), wellTypedB entry = true →
       (requiredKeys.all fun k => (getKey entry k).isSome) = true →
       getKey entry "alternative_names" = none →
       getKey entry "photo_url" = none →
       ∃ m, from_json entry = Except.ok m ∧ m.alternative_names = none ∧
         m.photo_url = none) := by
  constructor
  · intro entry hwt hmiss
    simp only [wellTypedB, Bool.and_eq_true] at hwt
    obtain ⟨⟨⟨⟨⟨⟨⟨⟨⟨hfnT, hlnT⟩, hpaT⟩, hprT⟩, hlaT⟩, hgeT⟩, hwiT⟩, hphT⟩, haT⟩, hdT⟩ := hwt
    rcases hdob : getKey entry "date_of_birth" with _ | jd
    · exact ⟨"date_of_birth", by decide, hdob, from_json_dob_none entry hdob⟩
    obtain ⟨s0, d0, rfl, hpar⟩ := dobTyped_shape entry jd hdob hdT
    have hstep := from_json_to_rest entry s0 d0 hdob hpar
    rcases hfn : getKey entry "first_name" with _ | jf
    · exact ⟨"first_name", by decide, hfn,
        by rw [hstep]; simp [from_json_rest, lookupKey, hfn, exceptBind_error]⟩
    obtain ⟨s1, rfl⟩ := strTyped_shape jf (keyTyped_some entry "first_name" strTypedB jf hfn hfnT)
    rcases hln : getKey entry "last_name" with _ | jl
    · exact ⟨"last_name", by decide, hln,
        by rw [hstep]
           simp [from_json_rest, lookupKey, hfn, hln, asStr,
             exceptBind_ok, exceptBind_error]⟩
    obtain ⟨s2, rfl⟩ := strTyped_shape jl (keyTyped_some entry "last_name" strTypedB jl hln hlnT)
    rcases hpa : getKey entry "party" with _ | jp
    · exact ⟨"party", by decide, hpa,
        by rw [hstep]
           simp [from_json_rest, lookupKey, hfn, hln, hpa, asStr,
             exceptBind_ok, exceptBind_error]⟩
    obtain ⟨s3, rfl⟩ := strTyped_shape jp (keyTyped_some entry "party" strTypedB jp hpa hpaT)
    rcases hpr : getKey entry "province" with _ | jr
    · exact ⟨"province", by decide, hpr,
        by rw [hstep]
           simp [from_json_rest, lookupKey, hfn, hln, hpa, hpr, asStr,
             exceptBind_ok, exceptBind_error]⟩
    obtain ⟨s4, rfl⟩ := strTyped_shape jr (keyTyped_some entry "province" strTypedB jr hpr hprT)
    rcases hla : getKey entry "language" with _ | jla
    · exact ⟨"language", by decide, hla,
        by rw [hstep]
           simp [from_json_rest, lookupKey, hfn, hln, hpa, hpr, hla, asStr,
             exceptBind_ok, exceptBind_error]⟩
    obtain ⟨s5, rfl⟩ :=
      strTyped_shape jla (keyTyped_some entry "language" strTypedB jla hla hlaT)
    rcases hwik : getKey entry "wiki" with _ | jw
    · exact ⟨"wiki", by decide, hwik,
        by rw [hstep]
           simp [from_json_rest, lookupKey, hfn, hln, hpa, hpr, hla, hwik, asStr,
             exceptBind_ok, exceptBind_error]⟩
    obtain ⟨w, hwv⟩ :=
      optStrTyped_ok "wiki" jw (keyTyped_some entry "wiki" optStrTypedB jw hwik hwiT)
    obtain ⟨av, hav⟩ := altTyped_ok entry haT
    rcases hge : getKey entry "gender" with _ | jg
    · exact ⟨"gender", by decide, hge,
        by rw [hstep]
           simp [from_json_rest, lookupKey, hfn, hln, hpa, hpr, hla, hwik, hwv, hav,
             hge, asStr, exceptBind_ok, exceptBind_error]⟩
    simp [requiredKeys, hdob, hfn, hln, hpa, hpr, hla, hwik, hge] at hmiss
  · intro entry hwt hall hano hpho
    simp only [wellTypedB, Bool.and_eq_true] at hwt
    obtain ⟨⟨⟨⟨⟨⟨⟨⟨⟨hfnT, hlnT⟩, hpaT⟩, hprT⟩, hlaT⟩, hgeT⟩, hwiT⟩, hphT⟩, haT⟩, hdT⟩ := hwt
    rcases hdob : getKey entry "date_of_birth" with _ | jd
    · simp [requiredKeys, hdob] at hall
    obtain ⟨s0, d0, rfl, hpar⟩ := dobTyped_shape entry jd hdob hdT
    have hstep := from_json_to_rest entry s0 d0 hdob hpar
    rcases hfn : getKey entry "first_name" with _ | jf
    · simp [requiredKeys, hfn] at hall
    obtain ⟨s1, rfl⟩ := strTyped_shape jf (keyTyped_some entry "first_name" strTypedB jf hfn hfnT)
    rcases hln : getKey entry "last_name" with _ | jl
    · simp [requiredKeys, hln] at hall
    obtain ⟨s2, rfl⟩ := strTyped_shape jl (keyTyped_some entry "last_name" strTypedB jl hln hlnT)
    rcases hpa : getKey entry "party" with _ | jp
    · simp [requiredKeys, hpa] at hall
    obtain ⟨s3, rfl⟩ := strTyped_shape jp (keyTyped_some entry "party" strTypedB jp hpa hpaT)
    rcases hpr : getKey entry "province" with _ | jr
    · simp [requiredKeys, hpr] at hall
    obtain ⟨s4, rfl⟩ := strTyped_shape jr (keyTyped_some entry "province" strTypedB jr hpr hprT)
    rcases hla : getKey entry "language" with _ | jla
    · simp [requiredKeys, hla] at hall
    obtain ⟨s5, rfl⟩ :=
      strTyped_shape jla (keyTyped_some entry "language" strTypedB jla hla hlaT)
    rcases hwik : getKey entry "wiki" with _ | jw
    · simp [requiredKeys, hwik] at hall
    obtain ⟨w, hwv⟩ :=
      optStrTyped_ok "wiki" jw (keyTyped_some entry "wiki" optStrTypedB jw hwik hwiT)
    rcases hge : getKey entry "gender" with _ | jg
    · simp [requiredKeys, hge] at hall
    obtain ⟨s8, rfl⟩ := strTyped_shape jg (keyTyped_some entry "gender" strTypedB jg hge hgeT)
    refine ⟨mkMember s1 s2 s3 s4 s5 w none s8 d0 none, ?_, rfl, rfl⟩
    rw [hstep]
    simp [from_json_rest, lookupKey, hfn, hln, hpa, hpr, hla, hwik, hwv, hano, hpho,
      hge, asStr, asOptStrList, exceptBind_ok, exceptPure]

/-- Instantiation of `from_json_required_optional` at two concrete records:
one lacking the required key `party`, one carrying every required key and
neither optional key. -/
theorem from_json_required_optional_witness :
    (wellTypedB entryMissingParty = true ∧
     (requiredKeys.any fun k => (getKey entryMissingParty k).isNone) = true ∧
     ∃ k, k ∈ requiredKeys ∧ getKey entryMissingParty k = none ∧
       from_json entryMissingParty = Except.error (JsonErr.keyError k)) ∧
    (wellTypedB entryComplete = true ∧
     (requiredKeys.all fun k => (getKey entryComplete k).isSome) = true ∧
     getKey entryComplete "alternative_names" = none ∧
     getKey entryComplete "photo_url" = none ∧
     ∃ m, from_json entryComplete = Except.ok m ∧ m.alternative_names = none ∧
       m.photo_url = none) :=
  ⟨⟨by decide, by decide,
    from_json_required_optional.1 entryMissingParty (by decide) (by decide)⟩,
   ⟨by decide, by decide, rfl, rfl,
    from_json_required_optional.2 entryComplete (by decide) (by decide) rfl rfl⟩⟩

end Scraper
